import Mathlib

/-
Verification development for a personal-training call scheduling system.
The definitions below are shallow embeddings of the Python sources:
`utils/session_utils.py` (entity store and availability engine),
`session_agent.py` (intent extraction and the booking dialogue), and
`outbound_session_calls.py` (the reminder dispatch loop).
Instants are modelled as minutes (`Nat`); the store is an in-memory
record of client and session lists with fresh-id counters.
-/

set_option maxRecDepth 4000

/-! ## Character helpers (Python `re` semantics, ASCII inputs) -/

/-- Python regex word character: `[a-zA-Z0-9_]`. -/
def isWordChar (c : Char) : Bool := c.isAlphanum || c == '_'

/-- Python regex whitespace class for ASCII text. -/
def isSpaceChar (c : Char) : Bool :=
  c == ' ' || c == '\t' || c == '\n' || c == '\x0d' || c == '\x0b' || c == '\x0c'

/-- The apostrophe character, by code point. -/
def apoChar : Char := Char.ofNat 39

/-- Class `[a-zA-Z\s]` used by the name-capture patterns. -/
def isNameChar (c : Char) : Bool :=
  (('a' ≤ c && c ≤ 'z') || ('A' ≤ c && c ≤ 'Z')) || isSpaceChar c

/-- Lowercasing as Python `str.lower` on ASCII text. -/
def lowerChars (s : List Char) : List Char := s.map Char.toLower

/-- Python word boundary between a previous character and the rest. -/
def atBoundary (p : Option Char) (s : List Char) : Bool :=
  let a := match p with | some c => isWordChar c | none => false
  let b := match s with | c :: _ => isWordChar c | [] => false
  a != b

/-! ## A small backtracking regex engine

Mirrors the behaviour of Python `re` on the fixed patterns used by
`extract_session_intent`: greedy quantifiers, ordered alternation and
leftmost-first scanning. `mrun` is fuel-bounded; the fuel passed below
is far above the worst case for the inputs and patterns in question. -/

inductive RE where
  | eps : RE
  | cls (p : Char → Bool) : RE
  | lit (s : List Char) : RE
  | alt (a b : RE) : RE
  | cat (a b : RE) : RE
  | opt (a : RE) : RE
  | rep (lo hi : Nat) (a : RE) : RE
  | star (a : RE) : RE
  | wb : RE

/-- Run regex `r` against a prefix of `s` (with `p` the preceding character),
calling continuation `k` on each candidate split in backtracking order and
returning the first success. -/
def mrun : Nat → RE → Option Char → List Char →
    (Option Char → List Char → Option (List Char)) → Option (List Char)
  | 0, _, _, _, _ => none
  | _ + 1, .eps, p, s, k => k p s
  | _ + 1, .cls f, _, s, k =>
    match s with
    | [] => none
    | c :: rest => if f c then k (some c) rest else none
  | n + 1, .lit l, p, s, k =>
    match l with
    | [] => k p s
    | c :: cs =>
      match s with
      | [] => none
      | d :: rest => if d == c then mrun n (.lit cs) (some d) rest k else none
  | n + 1, .alt a b, p, s, k =>
    match mrun n a p s k with
    | some r => some r
    | none => mrun n b p s k
  | n + 1, .cat a b, p, s, k => mrun n a p s (fun p' s' => mrun n b p' s' k)
  | n + 1, .opt a, p, s, k =>
    match mrun n a p s k with
    | some r => some r
    | none => k p s
  | n + 1, .rep lo hi a, p, s, k =>
    match lo, hi with
    | 0, 0 => k p s
    | 0, h + 1 =>
      match mrun n a p s (fun p' s' => mrun n (.rep 0 h a) p' s' k) with
      | some r => some r
      | none => k p s
    | l + 1, h + 1 => mrun n a p s (fun p' s' => mrun n (.rep l h a) p' s' k)
    | _ + 1, 0 => none
  | n + 1, .star a, p, s, k =>
    match mrun n a p s (fun p' s' => mrun n (.star a) p' s' k) with
    | some r => some r
    | none => k p s
  | _ + 1, .wb, p, s, k => if atBoundary p s then k p s else none

/-- Fuel bound for one match attempt. -/
def matchFuel (s : List Char) : Nat := 4 * s.length + 400

/-- Try to match `r` at the start of `s`; on success return the matched
text and the remaining suffix. -/
def tryMatchAt (r : RE) (prev : Option Char) (s : List Char) :
    Option (List Char × List Char) :=
  match mrun (matchFuel s) r prev s (fun _ s' => some s') with
  | none => none
  | some rest => some (s.take (s.length - rest.length), rest)

/-- `re.findall` over whole-match group patterns: scan left to right,
record non-overlapping matches, resume after each match. -/
def findAllAux : Nat → RE → Option Char → List Char → List (List Char)
  | 0, _, _, _ => []
  | n + 1, r, prev, s =>
    match tryMatchAt r prev s with
    | some (m, rest) =>
      match m.getLast? with
      | some c => m :: findAllAux n r (some c) rest
      | none =>
        match s with
        | [] => []
        | c :: cs => findAllAux n r (some c) cs
    | none =>
      match s with
      | [] => []
      | c :: cs => findAllAux n r (some c) cs

def findAll (r : RE) (s : List Char) : List (List Char) :=
  findAllAux (s.length + 1) r none s

/-- `re.findall` for the name patterns `<literal>([a-zA-Z\s]+)`: the
returned text is the capture group after the literal prefix. -/
def nameFindAllAux : Nat → List Char → List Char → List (List Char)
  | 0, _, _ => []
  | n + 1, lit, s =>
    if lit.isPrefixOf s then
      let afterLit := s.drop lit.length
      match afterLit with
      | c :: _ =>
        if isNameChar c then
          let grp := afterLit.takeWhile isNameChar
          grp :: nameFindAllAux n lit (afterLit.drop grp.length)
        else
          match s with
          | [] => []
          | _ :: cs => nameFindAllAux n lit cs
      | [] =>
        match s with
        | [] => []
        | _ :: cs => nameFindAllAux n lit cs
    else
      match s with
      | [] => []
      | _ :: cs => nameFindAllAux n lit cs

def nameFindAll (lit : List Char) (s : List Char) : List (List Char) :=
  nameFindAllAux (s.length + 1) lit s

/-- Python `str.strip`: drop whitespace from both ends. -/
def stripChars (s : List Char) : List Char :=
  ((s.dropWhile isSpaceChar).reverse.dropWhile isSpaceChar).reverse

/-- Python substring containment (`needle in haystack`). -/
def containsSub (needle : List Char) (hay : List Char) : Bool :=
  match hay with
  | [] => needle.isEmpty
  | _ :: t => needle.isPrefixOf hay || containsSub needle t

/-! ## The fixed patterns of `extract_session_intent` -/

def dCls : RE := .cls Char.isDigit
def wsStar : RE := .star (.cls isSpaceChar)
def ampm : RE := .alt (.lit ['a', 'm']) (.lit ['p', 'm'])
def dateSep : RE := .cls (fun c => c == '/' || c == '-')
def phoneSep : RE := .cls (fun c => c == '-' || c == '.')

/-- `\b(monday|tuesday|wednesday|thursday|friday|saturday|sunday)\b` -/
def weekdayPat : RE :=
  .cat .wb (.cat
    (.alt (.lit ("monday").toList)
    (.alt (.lit ("tuesday").toList)
    (.alt (.lit ("wednesday").toList)
    (.alt (.lit ("thursday").toList)
    (.alt (.lit ("friday").toList)
    (.alt (.lit ("saturday").toList) (.lit ("sunday").toList)))))))
    .wb)

/-- Numeric date pattern: one or two digits, a slash-or-dash separator,
one or two digits, separator, two to four digits, with word boundaries. -/
def numDatePat : RE :=
  .cat .wb (.cat (.rep 1 2 dCls) (.cat dateSep
    (.cat (.rep 1 2 dCls) (.cat dateSep (.cat (.rep 2 4 dCls) .wb)))))

/-- `\b(today|tomorrow|next week)\b` -/
def relDatePat : RE :=
  .cat .wb (.cat
    (.alt (.lit ("today").toList)
      (.alt (.lit ("tomorrow").toList) (.lit ("next week").toList)))
    .wb)

/-- `\b(\d{1,2}:\d{2}\s*(?:am|pm))\b` -/
def clockTimePat : RE :=
  .cat .wb (.cat (.rep 1 2 dCls) (.cat (.lit [':'])
    (.cat (.rep 2 2 dCls) (.cat wsStar (.cat ampm .wb)))))

/-- `\b(\d{1,2}\s*(?:am|pm))\b` -/
def hourTimePat : RE :=
  .cat .wb (.cat (.rep 1 2 dCls) (.cat wsStar (.cat ampm .wb)))

/-- `\b(morning|afternoon|evening)\b` -/
def daypartPat : RE :=
  .cat .wb (.cat
    (.alt (.lit ("morning").toList)
      (.alt (.lit ("afternoon").toList) (.lit ("evening").toList)))
    .wb)

/-- `\b(\d{3}[-.]?\d{3}[-.]?\d{4})\b` -/
def phonePat : RE :=
  .cat .wb (.cat (.rep 3 3 dCls) (.cat (.opt phoneSep)
    (.cat (.rep 3 3 dCls) (.cat (.opt phoneSep) (.cat (.rep 4 4 dCls) .wb)))))

/-- Literal prefix of `my name is ([a-zA-Z\s]+)`. -/
def myNameIsLit : List Char := ("my name is ").toList

/-- Literal prefix of the second name pattern (i-apostrophe-m). -/
def imLit : List Char := ['i', apoChar, 'm', ' ']

/-- Literal prefix of `this is ([a-zA-Z\s]+)`. -/
def thisIsLit : List Char := ("this is ").toList

/-! ## Intent extraction (`SessionSchedulingAgent.extract_session_intent`) -/

structure Extracted where
  intent : String
  dates : List String
  times : List String
  phone : Option String
  name : Option String
deriving DecidableEq

def scheduleWords : List (List Char) :=
  [("schedule").toList, ("book").toList, ("session").toList, ("training").toList]
def rescheduleWords : List (List Char) :=
  [("reschedule").toList, ("change").toList, ("move").toList]
def cancelWords : List (List Char) :=
  [("cancel").toList, ("remove").toList]
def availabilityWords : List (List Char) :=
  [("available").toList, ("availability").toList, ("free").toList]
def remainingWords : List (List Char) :=
  [("remaining").toList, ("sessions left").toList, ("how many").toList]

/-- The if/elif chain over keyword sets, first match wins. -/
def detectIntent (ml : List Char) : String :=
  if scheduleWords.any (fun w => containsSub w ml) then "schedule"
  else if rescheduleWords.any (fun w => containsSub w ml) then "reschedule"
  else if cancelWords.any (fun w => containsSub w ml) then "cancel"
  else if availabilityWords.any (fun w => containsSub w ml) then "check_availability"
  else if remainingWords.any (fun w => containsSub w ml) then "check_remaining"
  else "general"

/-- Shallow embedding of `extract_session_intent`: intent by keyword
containment on the lowercased message; dates, times and names found on the
lowercased message; the phone pattern applied to the original message. -/
def extract_session_intent (message : String) : Extracted :=
  let ml := lowerChars message.toList
  let dates := findAll weekdayPat ml ++ findAll numDatePat ml ++ findAll relDatePat ml
  let times := findAll clockTimePat ml ++ findAll hourTimePat ml ++ findAll daypartPat ml
  let phones := findAll phonePat message.toList
  let names := nameFindAll myNameIsLit ml ++ nameFindAll imLit ml ++ nameFindAll thisIsLit ml
  { intent := detectIntent ml
    dates := dates.map (fun l => String.mk l)
    times := times.map (fun l => String.mk l)
    phone := phones.head?.map (fun l => String.mk l)
    name := names.head?.map (fun l => String.mk (stripChars l)) }

/-! ## Entity store (`utils/session_utils.py`, `SessionManager`)

Instants are minutes; a Python `datetime` maps to minutes since an epoch,
a calendar day to `dateTime / 1440`. Document ids are modelled by
fresh-id counters. Timestamp bookkeeping fields (`createdAt`,
`updatedAt`, `reminderSentAt`, `lastReminderMethod`) are not modelled. -/

structure Client where
  id : Nat
  name : String
  phone : String
  trainerId : String
  sessionsRemaining : Int
  packageSize : Int
deriving DecidableEq

structure Session where
  id : Nat
  clientId : Nat
  clientName : String
  trainerId : String
  dateTime : Nat
  duration : Nat
  location : String
  status : String
  notes : String
  autoReminderSent : Bool
deriving DecidableEq

structure Store where
  clients : List Client
  sessions : List Session
  nextClientId : Nat
  nextSessionId : Nat
deriving DecidableEq

/-- `get_client_by_phone`: first client matching the phone (`limit(1)`). -/
def get_client_by_phone (st : Store) (phone : String) : Option Client :=
  st.clients.find? (fun c => c.phone == phone)

/-- `get_client_by_id`. -/
def get_client_by_id (st : Store) (cid : Nat) : Option Client :=
  st.clients.find? (fun c => c.id == cid)

/-- `create_client`: the stored record always has `sessionsRemaining = 0`
(the Python literal on line 61), whatever `package_size` was passed. -/
def create_client (st : Store) (name phone trainerId : String)
    (packageSize : Int) : Nat × Store :=
  (st.nextClientId,
   { st with
      clients := st.clients ++
        [{ id := st.nextClientId, name := name, phone := phone,
           trainerId := trainerId, sessionsRemaining := 0,
           packageSize := packageSize }]
      nextClientId := st.nextClientId + 1 })

/-- `create_session`: unconditionally adds a record with status
`scheduled` and `autoReminderSent = False`. -/
def create_session (st : Store) (clientId : Nat) (clientName trainerId : String)
    (sessionTime : Nat) (location : String) (duration : Nat)
    (notes : String) : Nat × Store :=
  (st.nextSessionId,
   { st with
      sessions := st.sessions ++
        [{ id := st.nextSessionId, clientId := clientId,
           clientName := clientName, trainerId := trainerId,
           dateTime := sessionTime, duration := duration,
           location := location, status := "scheduled",
           notes := notes, autoReminderSent := false }]
      nextSessionId := st.nextSessionId + 1 })

/-- `get_session_by_id`. -/
def get_session_by_id (st : Store) (sid : Nat) : Option Session :=
  st.sessions.find? (fun s => s.id == sid)

/-- `update_session_status`. -/
def update_session_status (st : Store) (sid : Nat) (status : String) : Store :=
  { st with
    sessions := st.sessions.map (fun s =>
      if s.id == sid then { s with status := status } else s) }

/-- `cancel_session`: sets status to cancelled. -/
def cancel_session (st : Store) (sid : Nat) : Store :=
  update_session_status st sid "cancelled"

/-- `reschedule_session`: updates `dateTime`, sets status back to
`scheduled`. There is no availability check of any kind. -/
def reschedule_session (st : Store) (sid : Nat) (newTime : Nat) : Store :=
  { st with
    sessions := st.sessions.map (fun s =>
      if s.id == sid then { s with dateTime := newTime, status := "scheduled" } else s) }

/-- `mark_reminder_sent`: one-way flag set. -/
def mark_reminder_sent (st : Store) (sid : Nat) : Store :=
  { st with
    sessions := st.sessions.map (fun s =>
      if s.id == sid then { s with autoReminderSent := true } else s) }

/-- `get_client_sessions_remaining`: balance of the client, 0 on a miss. -/
def get_client_sessions_remaining (st : Store) (cid : Nat) : Int :=
  match get_client_by_id st cid with
  | some c => c.sessionsRemaining
  | none => 0

/-- `update_client_sessions_remaining`: point update by client id. -/
def update_client_sessions_remaining (st : Store) (cid : Nat) (v : Int) : Store :=
  { st with
    clients := st.clients.map (fun c =>
      if c.id == cid then { c with sessionsRemaining := v } else c) }

/-! ## Availability engine (`SessionManager.get_available_slots`) -/

def minutesPerDay : Nat := 1440
def businessStartHour : Nat := 9
def businessEndHour : Nat := 18

/-- `date.replace(hour=0, minute=0, second=0, microsecond=0)`. -/
def startOfDay (date : Nat) : Nat := date / minutesPerDay * minutesPerDay

/-- The busy intervals: sessions of the trainer on that day whose status
is in `['scheduled']`, as half-open `(start, start + duration)` pairs. -/
def busySlots (st : Store) (trainerId : String) (sod : Nat) : List (Nat × Nat) :=
  (st.sessions.filter (fun s =>
    s.trainerId == trainerId && sod ≤ s.dateTime &&
    s.dateTime < sod + minutesPerDay && s.status == "scheduled")).map
    (fun s => (s.dateTime, s.dateTime + s.duration))

/-- The for-loop overlap test: the candidate is available when no busy
interval satisfies `current < busy_end and slot_end > busy_start`. -/
def slotFree (busy : List (Nat × Nat)) (cur slotEnd : Nat) : Bool :=
  busy.all (fun b => !(cur < b.2 && slotEnd > b.1))

/-- The while-loop generating candidate starts every 30 minutes while
`current + duration <= end`, structurally recursive on a counter. When
the counter is at least `endT + 1 - cur` it never runs out before the
loop condition fails (each iteration spends one unit and advances `cur`
by 30), so with the counter chosen in `genSlots` below this is exactly
the Python loop. -/
def genSlotsAux (busy : List (Nat × Nat)) (dur endT : Nat) :
    Nat → Nat → List Nat
  | 0, _ => []
  | n + 1, cur =>
    if cur + dur ≤ endT then
      if slotFree busy cur (cur + dur) then
        cur :: genSlotsAux busy dur endT n (cur + 30)
      else genSlotsAux busy dur endT n (cur + 30)
    else []

def genSlots (busy : List (Nat × Nat)) (cur endT dur : Nat) : List Nat :=
  genSlotsAux busy dur endT (endT + 1 - cur) cur

/-- `get_available_slots`. -/
def get_available_slots (st : Store) (trainerId : String) (date : Nat)
    (durationMinutes : Nat) : List Nat :=
  let sod := startOfDay date
  genSlots (busySlots st trainerId sod)
    (sod + businessStartHour * 60) (sod + businessEndHour * 60) durationMinutes

/-- `get_sessions_needing_reminders`: flag unset, status scheduled, and
`dateTime <= now + hours_ahead` (hours converted to minutes). -/
def get_sessions_needing_reminders (st : Store) (now : Nat) (hoursAhead : Nat) :
    List Session :=
  st.sessions.filter (fun s =>
    s.autoReminderSent == false && s.status == "scheduled" &&
    s.dateTime ≤ now + hoursAhead * 60)

/-! ## Booking dialogue (`SessionSchedulingAgent`)

The conversation context is the per-conversation dict: an absent key is
`none`. Python truthiness of the guards on lines 168-175 is modelled: an
empty extracted string, like an empty list, does not update the context. -/

structure Context where
  name : Option String
  phone : Option String
  date : Option String
  time : Option String
deriving DecidableEq

def emptyContext : Context := ⟨none, none, none, none⟩

def truthyStr (o : Option String) : Bool :=
  match o with
  | some s => s ≠ ""
  | none => false

/-- Lines 167-175: each truthy extraction is written into the context
(this assignment happens whether or not the key was already present). -/
def mergeContext (ctx : Context) (e : Extracted) : Context :=
  let c1 := if truthyStr e.name then { ctx with name := e.name } else ctx
  let c2 := if truthyStr e.phone then { c1 with phone := e.phone } else c1
  let c3 := if e.dates ≠ [] then { c2 with date := e.dates.head? } else c2
  if e.times ≠ [] then { c3 with time := e.times.head? } else c3

/-- The replies the modelled handlers can produce. -/
inductive Reply where
  | askName
  | askPhone
  | askDate
  | askTime
  | parseFail
  | noSessionsRemaining
  | booked (dateTime : Nat) (remainingAfter : Int)
  | rescheduleMsg
  | cancelMsg
  | availabilitySlots (slots : List Nat)
  | availabilityAsk
  | remainingReply (n : Int)
  | remainingNotFound
  | remainingAsk
  | generalMsg
deriving DecidableEq

/-- Default trainer id hard-coded in `session_agent.py`. -/
def defaultTrainerId : String := "8QYQXt91Kzf4j4w0i2kogb4zEyN2"

/-- Date resolution of the schedule handler: the literals today/tomorrow
map to calendar offsets 0 and +1 from the current day; anything else goes
to the external `dateutil` parser, given here as `extDate` (in days). -/
def resolveDate (extDate : String → Option Nat) (today : Nat) (s : String) :
    Option Nat :=
  let ls := String.mk (lowerChars s.toList)
  if ls == "today" then some today
  else if ls == "tomorrow" then some (today + 1)
  else extDate s

structure HandlerResult where
  reply : Reply
  store : Store
  ctx : Context
deriving DecidableEq

/-- Package gate and commit, lines 226-248: refuse when the balance of
the resolved client is not positive; otherwise create the session
unconditionally (there is no overlap re-validation of any kind) and
decrement the balance by one, clearing the context. -/
def finishWithClient (st : Store) (ctx : Context) (nm : String) (cid : Nat)
    (dt : Nat) : HandlerResult :=
  if get_client_sessions_remaining st cid ≤ 0 then ⟨.noSessionsRemaining, st, ctx⟩
  else
    ⟨.booked dt (get_client_sessions_remaining st cid - 1),
     update_client_sessions_remaining
       (create_session st cid nm defaultTrainerId dt ("Gym") 60 ("")).2 cid
       (get_client_sessions_remaining st cid - 1),
     emptyContext⟩

/-- Client resolution, lines 212-224: look up the client by phone, and
create one (with a zero balance) when the lookup misses. -/
def finishSchedule (st : Store) (ctx : Context) (nm ph : String)
    (dt : Nat) : HandlerResult :=
  match get_client_by_phone st ph with
  | some c => finishWithClient st ctx nm c.id dt
  | none =>
    match create_client st nm ph defaultTrainerId 0 with
    | (cid, st1) => finishWithClient st1 ctx nm cid dt

/-- `handle_schedule_request`, lines 159-253: merge the extraction into
the context, prompt for the first missing field in the fixed order,
otherwise resolve date and time and proceed to the commit path.

`extTime` stands for the external `dateutil` time parser (minutes within
the day); a `none` from either parser is the Python parse exception,
answered by the format re-prompt with the merged context kept. -/
def handle_schedule_request (extDate : String → Option Nat)
    (extTime : String → Option Nat) (today : Nat)
    (st : Store) (ctx0 : Context) (e : Extracted) : HandlerResult :=
  match mergeContext ctx0 e with
  | ⟨none, _, _, _⟩ => ⟨.askName, st, mergeContext ctx0 e⟩
  | ⟨some _, none, _, _⟩ => ⟨.askPhone, st, mergeContext ctx0 e⟩
  | ⟨some _, some _, none, _⟩ => ⟨.askDate, st, mergeContext ctx0 e⟩
  | ⟨some _, some _, some _, none⟩ => ⟨.askTime, st, mergeContext ctx0 e⟩
  | ⟨some nm, some ph, some dstr, some tstr⟩ =>
    match resolveDate extDate today dstr, extTime tstr with
    | some day, some tm =>
      finishSchedule st (mergeContext ctx0 e) nm ph (day * minutesPerDay + tm)
    | _, _ => ⟨.parseFail, st, mergeContext ctx0 e⟩

/-- `handle_availability_request` (read-only). -/
def handle_availability_request (extDate : String → Option Nat) (today : Nat)
    (st : Store) (e : Extracted) : Reply :=
  match e.dates.head? with
  | some dstr =>
    match resolveDate extDate today dstr with
    | some day => .availabilitySlots (get_available_slots st defaultTrainerId (day * minutesPerDay) 60)
    | none => .availabilityAsk
  | none => .availabilityAsk

/-- `handle_remaining_sessions_request` (read-only). -/
def handle_remaining_sessions_request (st : Store) (e : Extracted) : Reply :=
  match e.phone with
  | some ph =>
    match get_client_by_phone st ph with
    | some c => .remainingReply (get_client_sessions_remaining st c.id)
    | none => .remainingNotFound
  | none => .remainingAsk

/-- `process_scheduling_request`: dispatch on the extracted intent; only
the schedule branch touches the context or writes to the store. -/
def process_scheduling_request (extDate : String → Option Nat)
    (extTime : String → Option Nat) (today : Nat)
    (st : Store) (ctx : Context) (e : Extracted) : HandlerResult :=
  if e.intent == "schedule" then
    handle_schedule_request extDate extTime today st ctx e
  else if e.intent == "reschedule" then ⟨.rescheduleMsg, st, ctx⟩
  else if e.intent == "cancel" then ⟨.cancelMsg, st, ctx⟩
  else if e.intent == "check_availability" then
    ⟨handle_availability_request extDate today st e, st, ctx⟩
  else if e.intent == "check_remaining" then
    ⟨handle_remaining_sessions_request st e, st, ctx⟩
  else ⟨.generalMsg, st, ctx⟩

/-- One dialogue turn through the intent dispatcher. -/
def processTurn (extDate extTime : String → Option Nat) (today : Nat)
    (r : HandlerResult) (utt : String) : HandlerResult :=
  process_scheduling_request extDate extTime today r.store r.ctx
    (extract_session_intent utt)

/-- A sequence of turns through the intent dispatcher. -/
def processTurns (extDate extTime : String → Option Nat) (today : Nat)
    (st : Store) (ctx : Context) (utts : List String) : HandlerResult :=
  utts.foldl (processTurn extDate extTime today) ⟨.generalMsg, st, ctx⟩

/-- One turn dispatched directly to the schedule handler. -/
def handlerTurn (extDate extTime : String → Option Nat) (today : Nat)
    (r : HandlerResult) (utt : String) : HandlerResult :=
  handle_schedule_request extDate extTime today r.store r.ctx
    (extract_session_intent utt)

/-- A sequence of turns dispatched directly to the schedule handler. -/
def handlerTurns (extDate extTime : String → Option Nat) (today : Nat)
    (st : Store) (ctx : Context) (utts : List String) : HandlerResult :=
  utts.foldl (handlerTurn extDate extTime today) ⟨.generalMsg, st, ctx⟩

/-- A sequence of booking attempts given as already-extracted fields. -/
def runAttempts (extDate extTime : String → Option Nat) (today : Nat)
    (st : Store) (ctx : Context) (atts : List Extracted) : HandlerResult :=
  atts.foldl (fun r e =>
    handle_schedule_request extDate extTime today r.store r.ctx e)
    ⟨.generalMsg, st, ctx⟩

/-- Models the external `dateutil` parser applied to a time fragment
(`parser.parse(time_str).time()` as minutes within the day) on the
fragment shapes the extractor can produce: an hour, an optional
colon-and-minutes, optional spaces, then am or pm. Day-part words fail,
as `dateutil` raises on them. -/
def dateutilTime (s : String) : Option Nat :=
  let cs := s.toList
  let hs := cs.takeWhile Char.isDigit
  let r1 := cs.dropWhile Char.isDigit
  if hs.isEmpty then none
  else
    let h := hs.foldl (fun a c => a * 10 + (c.toNat - 48)) 0
    let parsed : Option (Nat × List Char) :=
      match r1 with
      | ':' :: r2 =>
        let ms := r2.takeWhile Char.isDigit
        if ms.isEmpty then none
        else some (ms.foldl (fun a c => a * 10 + (c.toNat - 48)) 0,
                   r2.dropWhile Char.isDigit)
      | _ => some (0, r1)
    match parsed with
    | none => none
    | some (m, r2) =>
      let r3 := r2.dropWhile isSpaceChar
      if h < 1 || 12 < h || 59 < m then none
      else if r3 == ['a', 'm'] then some ((h % 12) * 60 + m)
      else if r3 == ['p', 'm'] then some ((h % 12 + 12) * 60 + m)
      else none

/-! ## Reminder dispatch (`outbound_session_calls.py`) -/

/-- Outcome of the external telephony call for one queue item: the call
succeeded, the call reported failure, or the loop body raised (caught by
the per-item handler and accounted as failed). -/
inductive CallOutcome where
  | ok
  | fail
  | exn
deriving DecidableEq

/-- `make_reminder_call`: session and client are looked up; a miss, a
failed call, or a caught exception yields `false`; only on success is
the reminder flag set. `outcome` stands for `_make_call`. -/
def make_reminder_call (st : Store) (sid : Nat) (outcome : CallOutcome) :
    Bool × Store :=
  match get_session_by_id st sid with
  | none => (false, st)
  | some sess =>
    match get_client_by_id st sess.clientId with
    | none => (false, st)
    | some _ =>
      match outcome with
      | .ok => (true, mark_reminder_sent st sid)
      | _ => (false, st)

structure ReminderStats where
  total : Nat
  successful : Nat
  failed : Nat
deriving DecidableEq

/-- The for-loop of `process_reminder_queue`: each item is handled inside
its own try block, so one failure or exception never stops the loop. -/
def processQueueLoop (oracle : Nat → CallOutcome) :
    List Session → ReminderStats → Store → ReminderStats × Store
  | [], stats, st => (stats, st)
  | sess :: rest, stats, st =>
    match oracle sess.id with
    | .exn =>
      processQueueLoop oracle rest { stats with failed := stats.failed + 1 } st
    | o =>
      let r := make_reminder_call st sess.id o
      if r.1 then
        processQueueLoop oracle rest
          { stats with successful := stats.successful + 1 } r.2
      else
        processQueueLoop oracle rest
          { stats with failed := stats.failed + 1 } r.2

/-- `process_reminder_queue`. -/
def process_reminder_queue (oracle : Nat → CallOutcome) (now hoursAhead : Nat)
    (st : Store) : ReminderStats × Store :=
  let queue := get_sessions_needing_reminders st now hoursAhead
  processQueueLoop oracle queue ⟨queue.length, 0, 0⟩ st

/-! ## Spec-side predicates and concrete scenario artifacts -/

/-- Modelled from the spec: the commit-time availability re-validation the
spec ascribes to `reschedule(sessionId, newDateTime)` — the new interval
(at the session duration) conflicts with another active session of the
same trainer, half-open overlap test. The code contains no such check;
this predicate only serves to state that. -/
def conflictsAtNewTime (st : Store) (sid : Nat) (t' : Nat) : Bool :=
  match get_session_by_id st sid with
  | none => false
  | some s =>
    st.sessions.any (fun o =>
      o.id != sid && o.trainerId == s.trainerId && o.status == "scheduled" &&
      (t' < o.dateTime + o.duration && o.dateTime < t' + s.duration))

/-- The reminder-query membership condition exactly as the spec words it. -/
def reminderSpecPred (now hoursAhead : Nat) (s : Session) : Prop :=
  s.status = "scheduled" ∧ s.autoReminderSent = false ∧
  s.dateTime ≤ now + hoursAhead * 60

/-- Success condition of one reminder dispatch: the session is found and
its client is found (the telephony outcome is supplied separately). -/
def wouldSucceed (st : Store) (sid : Nat) : Bool :=
  match get_session_by_id st sid with
  | none => false
  | some sess => (get_client_by_id st sess.clientId).isSome

/-- The single utterance of the one-pass extraction scenario. -/
def uttC6 : String :=
  String.mk (("I").toList ++ [apoChar] ++
    ("d like to schedule for tomorrow at 2 PM, my name is Jane Smith, number 555-123-4567").toList)

/-- The four-turn dialogue scenario. -/
def fourTurnUtts : List String :=
  ["my name is Jane Smith", "555-123-4567", "tomorrow", "2pm"]

/-- A store holding one registered client with balance `n` for the
four-turn scenario. -/
def janeStore (n : Int) : Store :=
  ⟨[⟨0, "jane smith", "555-123-4567", defaultTrainerId, n, 10⟩], [], 1, 0⟩

/-- The expected store after the four-turn dialogue books tomorrow 2pm. -/
def janeBookedStore (today : Nat) (n : Int) : Store :=
  ⟨[⟨0, "jane smith", "555-123-4567", defaultTrainerId, n - 1, 10⟩],
   [⟨0, 0, "jane smith", defaultTrainerId, (today + 1) * 1440 + 840, 60,
     "Gym", "scheduled", "", false⟩], 1, 1⟩

/-- A complete context for the double-booking scenario. -/
def bookTwiceCtx : Context :=
  ⟨some ("jane smith"), some ("555-123-4567"), some ("today"), some ("2pm")⟩

/-- An extraction carrying only the schedule intent. -/
def scheduleOnlyExtract : Extracted := ⟨"schedule", [], [], none, none⟩

/-- First and second commits of the double-booking scenario. -/
def bookOnce : HandlerResult :=
  handle_schedule_request (fun _ => none) dateutilTime 0 (janeStore 2)
    bookTwiceCtx scheduleOnlyExtract

def bookTwice : HandlerResult :=
  handle_schedule_request (fun _ => none) dateutilTime 0 bookOnce.store
    bookTwiceCtx scheduleOnlyExtract

/-- A non-cancelled (confirmed) session covering the whole business day. -/
def confirmedAllDay : Session :=
  ⟨0, 0, "x", "T", 540, 540, "Gym", "confirmed", "", false⟩

def confirmedStore : Store := ⟨[], [confirmedAllDay], 0, 1⟩

/-- Two scheduled sessions of one trainer for the reschedule scenario. -/
def reschedStore : Store :=
  ⟨[], [⟨0, 0, "a", "T", 600, 60, "Gym", "scheduled", "", false⟩,
        ⟨1, 1, "b", "T", 720, 60, "Gym", "scheduled", "", false⟩], 0, 2⟩

/-- Reminder-sweep example sessions: 23 hours out, 30 hours out, and one
already flagged, relative to a current time `now`. -/
def sess23h (now : Nat) : Session :=
  ⟨0, 0, "a", "T", now + 23 * 60, 60, "Gym", "scheduled", "", false⟩
def sess30h (now : Nat) : Session :=
  ⟨1, 1, "b", "T", now + 30 * 60, 60, "Gym", "scheduled", "", false⟩
def sessFlagged (now : Nat) : Session :=
  ⟨2, 2, "c", "T", now + 10 * 60, 60, "Gym", "scheduled", "", true⟩

def reminderStore (now : Nat) : Store :=
  ⟨[], [sess23h now, sess30h now, sessFlagged now], 0, 3⟩

/-- A store for the reminder-dispatch witness: one due session and its
client. -/
def dispatchStore : Store :=
  ⟨[⟨0, "jane", "555", "T", 3, 10⟩],
   [⟨0, 0, "jane", "T", 600, 60, "Gym", "scheduled", "", false⟩], 1, 1⟩

/-! ## Theorems -/

/-- C6: applying the intent extractor to the single utterance about
scheduling tomorrow at 2 PM yields intent schedule (the schedule keyword
set being tested first), name jane smith, phone 555-123-4567, dates
[tomorrow] and times [2 pm], in one pass over the text. -/
theorem c6_single_utterance_extraction :
    extract_session_intent uttC6 =
      { intent := "schedule", dates := ["tomorrow"], times := ["2 pm"],
        phone := some ("555-123-4567"), name := some ("jane smith") } := by
  decide

/-- C5 counterexample: routed through the intent dispatcher
`process_scheduling_request` — the turn handler named by the claim — the
four utterances each classify as general intent, so no field is ever
accumulated and the fourth turn triggers no booking: the store and the
conversation context are unchanged and the reply is the generic help
message, refuting the claim for these four turns. -/
theorem c5_counterexample :
    processTurns (fun _ => none) dateutilTime 7 (janeStore 5) emptyContext
      fourTurnUtts = ⟨.generalMsg, janeStore 5, emptyContext⟩ := by
  decide

/-- C2 counterexample: with a client holding two package sessions, the
commit path is run twice for the same trainer and the same exact
interval; the second attempt also succeeds (reply `booked`, not any
unavailability failure) and a second session record for the identical
interval is created. -/
theorem c2_counterexample :
    bookOnce.reply = .booked 840 1 ∧
    bookTwice.reply = .booked 840 0 ∧
    bookTwice.store.sessions.length = 2 ∧
    bookTwice.store.sessions.map Session.dateTime = [840, 840] ∧
    bookTwice.store.sessions.map Session.trainerId =
      [defaultTrainerId, defaultTrainerId] := by
  decide

/-- C1 counterexample: a non-cancelled session (status confirmed) of the
trainer covers the whole business day, yet the availability computation
still returns the 09:00 start, whose interval intersects it — the busy
query only treats status scheduled as busy. -/
theorem c1_counterexample :
    confirmedAllDay ∈ confirmedStore.sessions ∧
    confirmedAllDay.trainerId = "T" ∧
    confirmedAllDay.status ≠ "cancelled" ∧
    540 ∈ get_available_slots confirmedStore ("T") 0 60 ∧
    540 < confirmedAllDay.dateTime + confirmedAllDay.duration ∧
    confirmedAllDay.dateTime < 540 + 60 := by
  decide

/-- C7 counterexample: session 1 (12:00) is rescheduled to 10:00, which
conflicts with session 0 (10:00-11:00, same trainer, active); the
operation nevertheless updates `dateTime` — no availability
re-validation happens. -/
theorem c7_counterexample :
    conflictsAtNewTime reschedStore 1 600 = true ∧
    get_session_by_id (reschedule_session reschedStore 1 600) 1 =
      some ⟨1, 1, "b", "T", 600, 60, "Gym", "scheduled", "", false⟩ := by
  decide

/-- C4 counterexample: a context that already captured the name alice is
fed an utterance carrying a fresh name extraction; the merge replaces the
previously captured name with the new one instead of keeping it. -/
theorem c4_counterexample :
    (processTurn (fun _ => none) dateutilTime 0
      ⟨.generalMsg, ⟨[], [], 0, 0⟩, ⟨some ("alice"), none, none, none⟩⟩
      ("my name is Bob, schedule please")).ctx.name = some ("bob") := by
  decide

/-- C8: the reminder query returns exactly the sessions with status
scheduled, reminder flag unset, and `dateTime <= now + leadHours`, with
no lower bound on how far in the past `dateTime` may lie; concretely,
with a 24h lead it returns the session dated now+23h and excludes the
one dated now+30h and the one already flagged. -/
theorem c8_reminder_query_exact :
    (∀ (st : Store) (now hoursAhead : Nat) (s : Session),
      s ∈ get_sessions_needing_reminders st now hoursAhead ↔
        s ∈ st.sessions ∧ reminderSpecPred now hoursAhead s) ∧
    (∀ now : Nat,
      get_sessions_needing_reminders (reminderStore now) now 24 =
        [sess23h now]) := by
  constructor
  · intro st now hoursAhead s
    simp only [get_sessions_needing_reminders, List.mem_filter,
      reminderSpecPred, Bool.and_eq_true, beq_iff_eq, decide_eq_true_eq]
    tauto
  · intro now
    have hA : now + 23 * 60 ≤ now + 24 * 60 := by omega
    have hB : ¬(now + 30 * 60 ≤ now + 24 * 60) := by omega
    simp [get_sessions_needing_reminders, reminderStore, sess23h,
      sess30h, sessFlagged, List.filter, hA, hB]

/-- C8 witness: the query applied at a concrete store and lead time
contains the session dated 23 hours out. -/
theorem c8_witness :
    sess23h 0 ∈ get_sessions_needing_reminders (reminderStore 0) 0 24 :=
  (c8_reminder_query_exact.1 (reminderStore 0) 0 24 (sess23h 0)).mpr
    (by constructor
        · decide
        · refine ⟨by decide, by decide, by decide⟩)

/-- C7 (amended): `reschedule_session` performs no availability
re-validation: even when the new interval conflicts with another active
session of the same trainer, the session is updated to the new
`dateTime` and its status is set back to scheduled. (The original claim
said the update is withheld on conflict; the counterexample refutes
that.) -/
theorem c7_reschedule_updates_unconditionally (st : Store) (sid t' : Nat)
    (hconf : conflictsAtNewTime st sid t' = true) :
    ∀ s ∈ (reschedule_session st sid t').sessions, s.id = sid →
      s.dateTime = t' ∧ s.status = "scheduled" := by
  intro s hs hid
  simp only [reschedule_session] at hs
  obtain ⟨s0, hs0, rfl⟩ := List.mem_map.mp hs
  by_cases h : s0.id = sid
  · simp [h]
  · simp [h] at hid

/-- C7 witness: the rescheduled session of the concrete conflicting
scenario carries the new time and the scheduled status. -/
theorem c7_witness :
    (Session.mk 1 1 ("b") ("T") 600 60 ("Gym") ("scheduled") ("") false).dateTime = 600 ∧
    (Session.mk 1 1 ("b") ("T") 600 60 ("Gym") ("scheduled") ("") false).status = "scheduled" :=
  c7_reschedule_updates_unconditionally reschedStore 1 600 (by decide)
    (Session.mk 1 1 ("b") ("T") 600 60 ("Gym") ("scheduled") ("") false)
    (by decide) (by decide)

/-- C4 (amended): the merge fills each context field from the newest
truthy extraction, overwriting any previously captured value of the same
kind; a field with no (or empty) fresh extraction keeps its previous
value. The schedule handler always carries forward either this merged
context or, after a successful booking, the cleared context. (The
original claim said a present field is never overwritten; the
counterexample refutes that.) -/
theorem c4_merge_overwrites (ctx : Context) (e : Extracted) :
    ((mergeContext ctx e).name =
      if truthyStr e.name then e.name else ctx.name) ∧
    ((mergeContext ctx e).phone =
      if truthyStr e.phone then e.phone else ctx.phone) ∧
    ((mergeContext ctx e).date =
      if e.dates ≠ [] then e.dates.head? else ctx.date) ∧
    ((mergeContext ctx e).time =
      if e.times ≠ [] then e.times.head? else ctx.time) ∧
    (∀ fd ft today st,
      (handle_schedule_request fd ft today st ctx e).ctx = mergeContext ctx e ∨
      (handle_schedule_request fd ft today st ctx e).ctx = emptyContext) := by
  refine ⟨?_, ?_, ?_, ?_, ?_⟩
  · by_cases h1 : truthyStr e.name = true <;>
      by_cases h2 : truthyStr e.phone = true <;>
      by_cases h3 : e.dates ≠ [] <;>
      by_cases h4 : e.times ≠ [] <;>
      simp [mergeContext, h1, h2, h3, h4]
  · by_cases h1 : truthyStr e.name = true <;>
      by_cases h2 : truthyStr e.phone = true <;>
      by_cases h3 : e.dates ≠ [] <;>
      by_cases h4 : e.times ≠ [] <;>
      simp [mergeContext, h1, h2, h3, h4]
  · by_cases h1 : truthyStr e.name = true <;>
      by_cases h2 : truthyStr e.phone = true <;>
      by_cases h3 : e.dates ≠ [] <;>
      by_cases h4 : e.times ≠ [] <;>
      simp [mergeContext, h1, h2, h3, h4]
  · by_cases h1 : truthyStr e.name = true <;>
      by_cases h2 : truthyStr e.phone = true <;>
      by_cases h3 : e.dates ≠ [] <;>
      by_cases h4 : e.times ≠ [] <;>
      simp [mergeContext, h1, h2, h3, h4]
  · intro fd ft today st
    unfold handle_schedule_request
    split
    · exact Or.inl rfl
    · exact Or.inl rfl
    · exact Or.inl rfl
    · exact Or.inl rfl
    · split
      · unfold finishSchedule
        split
        · unfold finishWithClient
          split
          · exact Or.inl rfl
          · exact Or.inr rfl
        · split
          unfold finishWithClient
          split
          · exact Or.inl rfl
          · exact Or.inr rfl
      · exact Or.inl rfl


/-- C10: when the phone matches no existing client, the schedule handler
creates the client with `sessionsRemaining = 0` — `create_client` stores
a zero balance regardless of the package size passed — so the
immediately following balance check fails with the package-exhausted
reply, no session is created, and the store gains only the new client
record: a first-time caller can never complete a booking in one flow. -/
theorem c10_new_client_zero_balance :
    (∀ (fd ft : String → Option Nat) (today : Nat) (st : Store)
        (ctx : Context) (e : Extracted) (nm ph ds ts : String) (day tm : Nat),
      mergeContext ctx e = ⟨some nm, some ph, some ds, some ts⟩ →
      resolveDate fd today ds = some day →
      ft ts = some tm →
      get_client_by_phone st ph = none →
      (∀ c ∈ st.clients, c.id ≠ st.nextClientId) →
      handle_schedule_request fd ft today st ctx e =
        ⟨.noSessionsRemaining,
         { st with
            clients := st.clients ++
              [⟨st.nextClientId, nm, ph, defaultTrainerId, 0, 0⟩],
            nextClientId := st.nextClientId + 1 },
         ⟨some nm, some ph, some ds, some ts⟩⟩) ∧
    (∀ (st : Store) (nm ph tid : String) (ps : Int),
      ((create_client st nm ph tid ps).2.clients).getLast? =
        some ⟨st.nextClientId, nm, ph, tid, 0, ps⟩) := by
  constructor
  · intro fd ft today st ctx e nm ph ds ts day tm hm hres htm hlook hfresh
    have hfind : st.clients.find? (fun c => c.id == st.nextClientId) = none :=
      List.find?_eq_none.mpr (fun c hc => by simpa using hfresh c hc)
    have hrem : get_client_sessions_remaining
        { st with
           clients := st.clients ++
             [⟨st.nextClientId, nm, ph, defaultTrainerId, 0, 0⟩],
           nextClientId := st.nextClientId + 1 } st.nextClientId = 0 := by
      unfold get_client_sessions_remaining get_client_by_id
      dsimp only
      rw [List.find?_append, hfind]
      simp
    unfold handle_schedule_request
    rw [hm]
    dsimp only
    rw [hres, htm]
    dsimp only
    unfold finishSchedule
    rw [hlook]
    dsimp only [create_client]
    unfold finishWithClient
    rw [hrem]
    rw [if_pos (le_refl (0 : Int))]
  · intro st nm ph tid ps
    simp [create_client]

/-- C10 witness: a schedule request from an unknown phone number on an
empty store ends in the package-exhausted reply with the new client at
zero balance and no session. -/
theorem c10_witness :
    handle_schedule_request (fun _ => none) dateutilTime 0 ⟨[], [], 0, 0⟩
      bookTwiceCtx scheduleOnlyExtract =
      ⟨.noSessionsRemaining,
       ⟨[⟨0, "jane smith", "555-123-4567", defaultTrainerId, 0, 0⟩], [], 1, 0⟩,
       bookTwiceCtx⟩ := by
  have h := c10_new_client_zero_balance.1 (fun _ => none) dateutilTime 0
    (⟨[], [], 0, 0⟩ : Store) bookTwiceCtx scheduleOnlyExtract
    ("jane smith") ("555-123-4567") ("today") ("2pm") 0 840
    (by decide) (by decide) (by decide) (by decide) (by simp)
  exact h

/-- C2 (amended): the commit path performs no overlap re-validation and
the code defines no slot-unavailability error: whenever the merged draft
is complete, the fields parse, and the client has at least one remaining
session, the commit succeeds and appends a new session for the requested
interval whatever the existing sessions of that trainer are — in
particular a second booking of the same exact interval also succeeds,
leaving two overlapping session records (see the counterexample). (The
original claim said an overlapping commit fails and creates nothing;
the counterexample refutes that.) -/
theorem c2_commit_without_revalidation
    (fd ft : String → Option Nat) (today : Nat) (st : Store)
    (ctx : Context) (e : Extracted) (nm ph ds ts : String) (day tm : Nat)
    (c : Client)
    (hm : mergeContext ctx e = ⟨some nm, some ph, some ds, some ts⟩)
    (hres : resolveDate fd today ds = some day)
    (htm : ft ts = some tm)
    (hlook : get_client_by_phone st ph = some c)
    (hbal : 1 ≤ get_client_sessions_remaining st c.id) :
    (handle_schedule_request fd ft today st ctx e).reply =
      .booked (day * minutesPerDay + tm)
        (get_client_sessions_remaining st c.id - 1) ∧
    (handle_schedule_request fd ft today st ctx e).store.sessions =
      st.sessions ++
        [⟨st.nextSessionId, c.id, nm, defaultTrainerId,
          day * minutesPerDay + tm, 60, "Gym", "scheduled", "", false⟩] := by
  unfold handle_schedule_request
  rw [hm]
  dsimp only
  rw [hres, htm]
  dsimp only
  unfold finishSchedule
  rw [hlook]
  dsimp only
  unfold finishWithClient
  rw [if_neg (by omega : ¬(get_client_sessions_remaining st c.id ≤ 0))]
  constructor
  · rfl
  · rfl

/-- C2 witness: the commit theorem applied at the concrete store of the
double-booking scenario. -/
theorem c2_witness :
    (handle_schedule_request (fun _ => none) dateutilTime 0 (janeStore 2)
        bookTwiceCtx scheduleOnlyExtract).reply = .booked 840 1 ∧
    (handle_schedule_request (fun _ => none) dateutilTime 0 (janeStore 2)
        bookTwiceCtx scheduleOnlyExtract).store.sessions =
      [⟨0, 0, "jane smith", defaultTrainerId, 840, 60, "Gym", "scheduled",
        "", false⟩] := by
  have h := c2_commit_without_revalidation (fun _ => none) dateutilTime 0
    (janeStore 2) bookTwiceCtx scheduleOnlyExtract
    ("jane smith") ("555-123-4567") ("today") ("2pm") 0 840
    ⟨0, "jane smith", "555-123-4567", defaultTrainerId, 2, 10⟩
    (by decide) (by decide) (by decide) (by decide) (by decide)
  exact h
theorem update_remaining_eq (st : Store) (cid : Nat) (v : Int)
    (h : (get_client_by_id st cid).isSome) :
    get_client_sessions_remaining (update_client_sessions_remaining st cid v) cid = v := by
  unfold get_client_by_id at h
  unfold get_client_sessions_remaining get_client_by_id update_client_sessions_remaining
  dsimp only
  rw [List.find?_map]
  have hp : ((fun c => c.id == cid) ∘
      (fun c : Client => if c.id == cid then { c with sessionsRemaining := v } else c)) =
      (fun c : Client => c.id == cid) := by
    funext c
    by_cases hc : c.id = cid <;> simp [hc]
  rw [hp]
  rcases hfind : st.clients.find? (fun c => c.id == cid) with _ | c0
  · rw [hfind] at h; simp at h
  · have hc0 := List.find?_some hfind
    rw [hfind]
    simp [hc0, show c0.id = cid from by simpa using hc0]

theorem finishWithClient_cases (st : Store) (ctx : Context) (nm : String)
    (cid : Nat) (dt : Nat) :
    (get_client_sessions_remaining st cid ≤ 0 ∧
      finishWithClient st ctx nm cid dt = ⟨.noSessionsRemaining, st, ctx⟩) ∨
    (1 ≤ get_client_sessions_remaining st cid ∧
      finishWithClient st ctx nm cid dt =
        ⟨.booked dt (get_client_sessions_remaining st cid - 1),
         update_client_sessions_remaining
           (create_session st cid nm defaultTrainerId dt ("Gym") 60 ("")).2 cid
           (get_client_sessions_remaining st cid - 1),
         emptyContext⟩) := by
  by_cases h : get_client_sessions_remaining st cid ≤ 0
  · exact Or.inl ⟨h, by unfold finishWithClient; rw [if_pos h]⟩
  · exact Or.inr ⟨by omega, by unfold finishWithClient; rw [if_neg h]⟩

theorem finishWithClient_nonneg (st : Store) (ctx : Context) (nm : String)
    (cid : Nat) (dt : Nat)
    (h : ∀ c ∈ st.clients, 0 ≤ c.sessionsRemaining) :
    ∀ c ∈ (finishWithClient st ctx nm cid dt).store.clients,
      0 ≤ c.sessionsRemaining := by
  rcases finishWithClient_cases st ctx nm cid dt with ⟨_, heq⟩ | ⟨hge, heq⟩
  · rw [heq]; exact h
  · rw [heq]
    intro c hc
    simp only [update_client_sessions_remaining, create_session] at hc
    obtain ⟨c0, hc0, rfl⟩ := List.mem_map.mp hc
    by_cases hid : c0.id = cid
    · simp only [hid, beq_self_eq_true, if_true]
      omega
    · rw [if_neg (by simpa using hid)]
      exact h c0 hc0

theorem finishWithClient_booked (st : Store) (ctx : Context) (nm : String)
    (cid : Nat) (dt dt' : Nat) (r : Int)
    (hex : (get_client_by_id st cid).isSome)
    (h : (finishWithClient st ctx nm cid dt).reply = .booked dt' r) :
    1 ≤ get_client_sessions_remaining st cid ∧
    r = get_client_sessions_remaining st cid - 1 ∧
    get_client_sessions_remaining
      (finishWithClient st ctx nm cid dt).store cid =
      get_client_sessions_remaining st cid - 1 := by
  rcases finishWithClient_cases st ctx nm cid dt with ⟨hle, heq⟩ | ⟨hge, heq⟩
  · rw [heq] at h; simp at h
  · rw [heq] at h ⊢
    dsimp only at h ⊢
    simp only [Reply.booked.injEq] at h
    refine ⟨hge, h.2.symm, ?_⟩
    exact update_remaining_eq _ cid _ hex
theorem handle_schedule_nonneg (fd ft : String → Option Nat) (today : Nat)
    (st : Store) (ctx : Context) (e : Extracted)
    (h : ∀ c ∈ st.clients, 0 ≤ c.sessionsRemaining) :
    ∀ c ∈ (handle_schedule_request fd ft today st ctx e).store.clients,
      0 ≤ c.sessionsRemaining := by
  unfold handle_schedule_request
  split
  · exact h
  · exact h
  · exact h
  · exact h
  · split
    · unfold finishSchedule
      rcases hfound : get_client_by_phone st _ with _ | c
      · dsimp only [create_client]
        apply finishWithClient_nonneg
        intro c hc
        rcases List.mem_append.mp hc with hmem | hmem
        · exact h c hmem
        · rcases List.mem_singleton.mp hmem with rfl
          exact le_refl 0
      · exact finishWithClient_nonneg _ _ _ _ _ h
    · exact h

theorem handle_schedule_result (fd ft : String → Option Nat) (today : Nat)
    (st : Store) (ctx : Context) (e : Extracted) :
    (∃ rep, (rep = Reply.askName ∨ rep = Reply.askPhone ∨ rep = Reply.askDate ∨
        rep = Reply.askTime ∨ rep = Reply.parseFail) ∧
      handle_schedule_request fd ft today st ctx e =
        ⟨rep, st, mergeContext ctx e⟩) ∨
    (∃ nm dt st1 cid,
      st1.sessions = st.sessions ∧
      (get_client_by_id st1 cid).isSome ∧
      (∀ c ∈ st.clients, c ∈ st1.clients) ∧
      handle_schedule_request fd ft today st ctx e =
        finishWithClient st1 (mergeContext ctx e) nm cid dt) := by
  unfold handle_schedule_request
  split
  · exact Or.inl ⟨Reply.askName, by tauto, rfl⟩
  · exact Or.inl ⟨Reply.askPhone, by tauto, rfl⟩
  · exact Or.inl ⟨Reply.askDate, by tauto, rfl⟩
  · exact Or.inl ⟨Reply.askTime, by tauto, rfl⟩
  · split
    · right
      unfold finishSchedule
      rcases hfound : get_client_by_phone st _ with _ | c
      · dsimp only [create_client]
        refine ⟨_, _, _, st.nextClientId, ?_, ?_, ?_, rfl⟩
        · rfl
        · unfold get_client_by_id
          dsimp only
          rw [List.find?_append]
          rcases hl : List.find? (fun c => c.id == st.nextClientId) st.clients with _ | c1
          · simp
          · simp
        · intro c hc
          exact List.mem_append.mpr (Or.inl hc)
      · refine ⟨_, _, _, c.id, ?_, ?_, ?_, rfl⟩
        · rfl
        · have hmem := List.mem_of_find?_eq_some hfound
          unfold get_client_by_id
          exact List.find?_isSome.mpr ⟨c, hmem, by simp⟩
        · exact fun c hc => hc
    · exact Or.inl ⟨Reply.parseFail, by tauto, rfl⟩
theorem runAttempts_nonneg_from (fd ft : String → Option Nat) (today : Nat)
    (atts : List Extracted) :
    ∀ r : HandlerResult, (∀ c ∈ r.store.clients, 0 ≤ c.sessionsRemaining) →
      ∀ c ∈ (atts.foldl (fun r e =>
          handle_schedule_request fd ft today r.store r.ctx e) r).store.clients,
        0 ≤ c.sessionsRemaining := by
  induction atts with
  | nil => exact fun r h => h
  | cons a l ih =>
    intro r h
    exact ih _ (handle_schedule_nonneg fd ft today r.store r.ctx a h)

/-- C3: balances never go negative under any sequence of booking
attempts; an attempt against a client whose balance is not positive
fails with the package-exhausted reply leaving the store untouched; a
committed booking reports and stores a balance decremented by exactly
one from a previously positive balance; and an attempt that does not
commit leaves every pre-existing client record (hence balance)
unchanged in the store. -/
theorem c3_sessions_remaining_invariant :
    (∀ (fd ft : String → Option Nat) (today : Nat) (atts : List Extracted)
        (st : Store) (ctx : Context),
      (∀ c ∈ st.clients, 0 ≤ c.sessionsRemaining) →
      ∀ c ∈ (runAttempts fd ft today st ctx atts).store.clients,
        0 ≤ c.sessionsRemaining) ∧
    (∀ (fd ft : String → Option Nat) (today : Nat) (st : Store)
        (ctx : Context) (e : Extracted) (nm ph ds ts : String)
        (day tm : Nat) (c : Client),
      mergeContext ctx e = ⟨some nm, some ph, some ds, some ts⟩ →
      resolveDate fd today ds = some day →
      ft ts = some tm →
      get_client_by_phone st ph = some c →
      get_client_sessions_remaining st c.id ≤ 0 →
      handle_schedule_request fd ft today st ctx e =
        ⟨.noSessionsRemaining, st, ⟨some nm, some ph, some ds, some ts⟩⟩) ∧
    (∀ (fd ft : String → Option Nat) (today : Nat) (st : Store)
        (ctx : Context) (e : Extracted) (dt : Nat) (r : Int),
      (handle_schedule_request fd ft today st ctx e).reply = .booked dt r →
      ∃ cid old, 1 ≤ old ∧ r = old - 1 ∧
        get_client_sessions_remaining
          (handle_schedule_request fd ft today st ctx e).store cid = old - 1) ∧
    (∀ (fd ft : String → Option Nat) (today : Nat) (st : Store)
        (ctx : Context) (e : Extracted),
      (∀ (dt : Nat) (r : Int),
        (handle_schedule_request fd ft today st ctx e).reply ≠ .booked dt r) →
      ∀ c ∈ st.clients,
        c ∈ (handle_schedule_request fd ft today st ctx e).store.clients) := by
  refine ⟨?_, ?_, ?_, ?_⟩
  · intro fd ft today atts st ctx h
    exact runAttempts_nonneg_from fd ft today atts ⟨.generalMsg, st, ctx⟩ h
  · intro fd ft today st ctx e nm ph ds ts day tm c hm hres htm hlook hbal
    unfold handle_schedule_request
    rw [hm]
    dsimp only
    rw [hres, htm]
    dsimp only
    unfold finishSchedule
    rw [hlook]
    dsimp only
    unfold finishWithClient
    rw [if_pos hbal]
  · intro fd ft today st ctx e dt r h
    rcases handle_schedule_result fd ft today st ctx e with
      ⟨rep, hrep, heq⟩ | ⟨nm, dt', st1, cid, hsess, hex, hmem, heq⟩
    · rw [heq] at h
      dsimp only at h
      rcases hrep with rfl | rfl | rfl | rfl | rfl <;> simp at h
    · rw [heq] at h ⊢
      obtain ⟨hge, hr, hafter⟩ :=
        finishWithClient_booked st1 (mergeContext ctx e) nm cid dt' dt r hex h
      exact ⟨cid, get_client_sessions_remaining st1 cid, hge, hr, hafter⟩
  · intro fd ft today st ctx e hnb c hc
    rcases handle_schedule_result fd ft today st ctx e with
      ⟨rep, hrep, heq⟩ | ⟨nm, dt', st1, cid, hsess, hex, hmem, heq⟩
    · rw [heq]; exact hc
    · rw [heq] at hnb ⊢
      rcases finishWithClient_cases st1 (mergeContext ctx e) nm cid dt' with
        ⟨hle, hfeq⟩ | ⟨hge, hfeq⟩
      · rw [hfeq]; exact hmem c hc
      · rw [hfeq] at hnb
        exact absurd rfl (hnb _ _)

/-- C3 witness: a booking attempt by the registered client holding a
zero balance fails with the package-exhausted reply and changes
nothing. -/
theorem c3_witness :
    handle_schedule_request (fun _ => none) dateutilTime 0 (janeStore 0)
      bookTwiceCtx scheduleOnlyExtract =
      ⟨.noSessionsRemaining, janeStore 0,
       ⟨some ("jane smith"), some ("555-123-4567"), some ("today"),
        some ("2pm")⟩⟩ := by
  have h := c3_sessions_remaining_invariant.2.1 (fun _ => none) dateutilTime 0
    (janeStore 0) bookTwiceCtx scheduleOnlyExtract
    ("jane smith") ("555-123-4567") ("today") ("2pm") 0 840
    ⟨0, "jane smith", "555-123-4567", defaultTrainerId, 0, 10⟩
    (by decide) (by decide) (by decide) (by decide) (by decide)
  exact h
theorem make_reminder_call_fail (st : Store) (sid : Nat) :
    make_reminder_call st sid .fail = (false, st) := by
  unfold make_reminder_call
  rcases hs : get_session_by_id st sid with _ | sess
  · rfl
  · dsimp only
    rcases hc : get_client_by_id st sess.clientId with _ | c
    · rfl
    · rfl

theorem make_reminder_call_ok (st : Store) (sid : Nat) :
    make_reminder_call st sid .ok =
      (wouldSucceed st sid,
       if wouldSucceed st sid then mark_reminder_sent st sid else st) := by
  unfold make_reminder_call wouldSucceed
  rcases hs : get_session_by_id st sid with _ | sess
  · rfl
  · dsimp only
    rcases hc : get_client_by_id st sess.clientId with _ | c
    · rfl
    · rfl

theorem find_session_map_flag (ss : List Session) (x sid : Nat) :
    (ss.map (fun s =>
      if s.id == x then { s with autoReminderSent := true } else s)).find?
        (fun s => s.id == sid) =
      (ss.find? (fun s => s.id == sid)).map (fun s =>
        if s.id == x then { s with autoReminderSent := true } else s) := by
  rw [List.find?_map]
  have hp : ((fun s => s.id == sid) ∘ (fun s : Session =>
      if s.id == x then { s with autoReminderSent := true } else s)) =
      (fun s : Session => s.id == sid) := by
    funext s
    by_cases h : s.id = x <;> simp [h]
  rw [hp]

theorem wouldSucceed_mark (st : Store) (x sid : Nat) :
    wouldSucceed (mark_reminder_sent st x) sid = wouldSucceed st sid := by
  unfold wouldSucceed get_session_by_id mark_reminder_sent
  dsimp only
  rw [find_session_map_flag]
  rcases hf : st.sessions.find? (fun s => s.id == sid) with _ | sess
  · rw [hf]
    rfl
  · rw [hf]
    dsimp only [Option.map_some']
    by_cases h : sess.id = x <;> simp [h, get_client_by_id]

theorem processQueueLoop_stats (oracle : Nat → CallOutcome) :
    ∀ (q : List Session) (stats : ReminderStats) (st : Store),
      (processQueueLoop oracle q stats st).1.successful +
          (processQueueLoop oracle q stats st).1.failed =
        stats.successful + stats.failed + q.length ∧
      (processQueueLoop oracle q stats st).1.total = stats.total := by
  intro q
  induction q with
  | nil => intro stats st; simp [processQueueLoop]
  | cons a l ih =>
    intro stats st
    unfold processQueueLoop
    rcases h : oracle a.id with _ | _ | _
    · dsimp only
      rw [make_reminder_call_ok]
      by_cases hw : wouldSucceed st a.id
      · simp only [hw, if_true]
        obtain ⟨h1, h2⟩ := ih { stats with successful := stats.successful + 1 }
          (mark_reminder_sent st a.id)
        refine ⟨?_, h2⟩
        rw [h1]
        simp
        omega
      · simp only [hw, Bool.false_eq_true, if_false]
        obtain ⟨h1, h2⟩ := ih { stats with failed := stats.failed + 1 } st
        refine ⟨?_, h2⟩
        rw [h1]
        simp
        omega
    · dsimp only
      rw [make_reminder_call_fail]
      dsimp only
      simp only [Bool.false_eq_true, if_false]
      obtain ⟨h1, h2⟩ := ih { stats with failed := stats.failed + 1 } st
      refine ⟨?_, h2⟩
      rw [h1]
      simp
      omega
    · dsimp only
      obtain ⟨h1, h2⟩ := ih { stats with failed := stats.failed + 1 } st
      refine ⟨?_, h2⟩
      rw [h1]
      simp
      omega
theorem processQueueLoop_clients (oracle : Nat → CallOutcome) :
    ∀ (q : List Session) (stats : ReminderStats) (st : Store),
      (processQueueLoop oracle q stats st).2.clients = st.clients := by
  intro q
  induction q with
  | nil => intro stats st; rfl
  | cons a l ih =>
    intro stats st
    unfold processQueueLoop
    rcases h : oracle a.id with _ | _ | _
    · dsimp only
      rw [make_reminder_call_ok]
      by_cases hw : wouldSucceed st a.id
      · simp only [hw, if_true]
        rw [ih]
        rfl
      · simp only [hw, Bool.false_eq_true, if_false]
        exact ih _ _
    · dsimp only
      rw [make_reminder_call_fail]
      dsimp only
      simp only [Bool.false_eq_true, if_false]
      exact ih _ _
    · dsimp only
      exact ih _ _

theorem processQueueLoop_flag (oracle : Nat → CallOutcome) :
    ∀ (q : List Session) (stats : ReminderStats) (st : Store),
      ∀ s' ∈ (processQueueLoop oracle q stats st).2.sessions,
        s'.autoReminderSent = true →
        ∃ s ∈ st.sessions, s.id = s'.id ∧
          (s.autoReminderSent = true ∨
            (oracle s.id = .ok ∧ wouldSucceed st s.id = true)) := by
  intro q
  induction q with
  | nil =>
    intro stats st s' hs' hflag
    exact ⟨s', hs', rfl, Or.inl hflag⟩
  | cons a l ih =>
    intro stats st s' hs' hflag
    unfold processQueueLoop at hs'
    rcases h : oracle a.id with _ | _ | _
    · rw [h] at hs'
      dsimp only at hs'
      rw [make_reminder_call_ok] at hs'
      by_cases hw : wouldSucceed st a.id
      · simp only [hw, if_true] at hs'
        obtain ⟨s, hs, hid, hrest⟩ := ih _ _ s' hs' hflag
        simp only [mark_reminder_sent] at hs
        obtain ⟨s0, hs0, rfl⟩ := List.mem_map.mp hs
        by_cases hida : s0.id = a.id
        · refine ⟨s0, hs0, ?_, Or.inr ⟨?_, ?_⟩⟩
          · simpa [hida] using hid
          · rw [hida]; exact h
          · rw [hida]; exact hw
        · rw [if_neg (by simpa using hida)] at hid hrest
          refine ⟨s0, hs0, hid, ?_⟩
          rcases hrest with hfl | ⟨ho, hws⟩
          · exact Or.inl hfl
          · exact Or.inr ⟨ho, by rw [← wouldSucceed_mark st a.id s0.id]; exact hws⟩
      · simp only [hw, Bool.false_eq_true, if_false] at hs'
        exact ih _ _ s' hs' hflag
    · rw [h] at hs'
      dsimp only at hs'
      rw [make_reminder_call_fail] at hs'
      dsimp only at hs'
      simp only [Bool.false_eq_true, if_false] at hs'
      exact ih _ _ s' hs' hflag
    · rw [h] at hs'
      dsimp only at hs'
      exact ih _ _ s' hs' hflag

/-- C9: the reminder sweep is tolerant of per-item failure — every queue
item is accounted, the final statistics satisfy
successful + failed = total with total the queue length, the client
records are untouched, and a session ends flagged only when it was
already flagged or its dispatch reported success (an exception or a
failed call leaves the flag unset, to be retried on the next sweep). -/
theorem c9_reminder_sweep_isolated (oracle : Nat → CallOutcome)
    (now hoursAhead : Nat) (st : Store) :
    ((process_reminder_queue oracle now hoursAhead st).1.successful +
        (process_reminder_queue oracle now hoursAhead st).1.failed =
      (process_reminder_queue oracle now hoursAhead st).1.total) ∧
    ((process_reminder_queue oracle now hoursAhead st).1.total =
      (get_sessions_needing_reminders st now hoursAhead).length) ∧
    ((process_reminder_queue oracle now hoursAhead st).2.clients =
      st.clients) ∧
    (∀ s' ∈ (process_reminder_queue oracle now hoursAhead st).2.sessions,
      s'.autoReminderSent = true →
      ∃ s ∈ st.sessions, s.id = s'.id ∧
        (s.autoReminderSent = true ∨
          (oracle s.id = .ok ∧ wouldSucceed st s.id = true))) := by
  unfold process_reminder_queue
  obtain ⟨h1, h2⟩ := processQueueLoop_stats oracle
    (get_sessions_needing_reminders st now hoursAhead)
    ⟨(get_sessions_needing_reminders st now hoursAhead).length, 0, 0⟩ st
  refine ⟨?_, ?_, processQueueLoop_clients oracle _ _ _,
    processQueueLoop_flag oracle _ _ _⟩
  · rw [h1, h2]
    simp
  · rw [h2]

/-- C9 witness: the sweep statistics balance on a concrete store with an
all-success telephony outcome. -/
theorem c9_witness :
    (process_reminder_queue (fun _ => .ok) 0 24 dispatchStore).1.successful +
      (process_reminder_queue (fun _ => .ok) 0 24 dispatchStore).1.failed =
      (process_reminder_queue (fun _ => .ok) 0 24 dispatchStore).1.total :=
  (c9_reminder_sweep_isolated (fun _ => .ok) 0 24 dispatchStore).1
theorem genSlotsAux_mem (busy : List (Nat × Nat)) (dur endT : Nat) :
    ∀ (n cur s : Nat), s ∈ genSlotsAux busy dur endT n cur →
      (∃ k, s = cur + 30 * k) ∧ s + dur ≤ endT ∧
      slotFree busy s (s + dur) = true := by
  intro n
  induction n with
  | zero => intro cur s hs; simp [genSlotsAux] at hs
  | succ n ih =>
    intro cur s hs
    unfold genSlotsAux at hs
    by_cases hc : cur + dur ≤ endT
    · rw [if_pos hc] at hs
      by_cases hf : slotFree busy cur (cur + dur) = true
      · rw [if_pos hf] at hs
        rcases List.mem_cons.mp hs with rfl | hs'
        · exact ⟨⟨0, by omega⟩, hc, hf⟩
        · obtain ⟨⟨k, hk⟩, h2, h3⟩ := ih (cur + 30) s hs'
          exact ⟨⟨k + 1, by omega⟩, h2, h3⟩
      · rw [if_neg hf] at hs
        obtain ⟨⟨k, hk⟩, h2, h3⟩ := ih (cur + 30) s hs
        exact ⟨⟨k + 1, by omega⟩, h2, h3⟩
    · rw [if_neg hc] at hs
      simp at hs

theorem genSlotsAux_pairwise (busy : List (Nat × Nat)) (dur endT : Nat) :
    ∀ (n cur : Nat), (genSlotsAux busy dur endT n cur).Pairwise (· < ·) := by
  intro n
  induction n with
  | zero => intro cur; simp [genSlotsAux]
  | succ n ih =>
    intro cur
    unfold genSlotsAux
    by_cases hc : cur + dur ≤ endT
    · rw [if_pos hc]
      by_cases hf : slotFree busy cur (cur + dur) = true
      · rw [if_pos hf]
        refine List.Pairwise.cons ?_ (ih (cur + 30))
        intro b hb
        obtain ⟨⟨k, hk⟩, _, _⟩ := genSlotsAux_mem busy dur endT n (cur + 30) b hb
        omega
      · rw [if_neg hf]
        exact ih (cur + 30)
    · rw [if_neg hc]
      simp

/-- C1 (amended): every start returned by the availability computation
lies within business hours (start at or after 09:00, start + duration at
or before 18:00 of that day), is stepped at 30-minute granularity from
business open, and its half-open interval does not intersect the
interval of any existing session of that trainer on that day whose
status is scheduled — the only status the busy query selects; the
returned sequence is strictly ascending. (The original claim said every
non-cancelled session is avoided; the confirmed-status counterexample
refutes that.) -/
theorem c1_available_slots_in_hours (st : Store) (tid : String)
    (date dur : Nat) (hdur : 0 < dur) :
    (∀ s ∈ get_available_slots st tid date dur,
      startOfDay date + 540 ≤ s ∧
      s + dur ≤ startOfDay date + 1080 ∧
      (∃ k, s = startOfDay date + 540 + 30 * k) ∧
      (∀ sess ∈ st.sessions,
        sess.trainerId = tid → sess.status = "scheduled" →
        startOfDay date ≤ sess.dateTime →
        sess.dateTime < startOfDay date + minutesPerDay →
        ¬(s < sess.dateTime + sess.duration ∧ sess.dateTime < s + dur))) ∧
    (get_available_slots st tid date dur).Pairwise (· < ·) := by
  constructor
  · intro s hs
    obtain ⟨⟨k, hk⟩, h2, h3⟩ :=
      genSlotsAux_mem (busySlots st tid (startOfDay date)) dur
        (startOfDay date + businessEndHour * 60)
        (startOfDay date + businessEndHour * 60 + 1 -
          (startOfDay date + businessStartHour * 60))
        (startOfDay date + businessStartHour * 60) s hs
    have hk' : s = startOfDay date + 540 + 30 * k := by
      simpa [businessStartHour] using hk
    have h2' : s + dur ≤ startOfDay date + 1080 := by
      simpa [businessEndHour] using h2
    refine ⟨by omega, h2', ⟨k, hk'⟩, ?_⟩
    intro sess hsess ht hst hlo hhi hover
    have hhi' : sess.dateTime < startOfDay date + 1440 := by
      simpa [minutesPerDay] using hhi
    have hb : (sess.dateTime, sess.dateTime + sess.duration) ∈
        busySlots st tid (startOfDay date) := by
      unfold busySlots
      refine List.mem_map.mpr ⟨sess, List.mem_filter.mpr ⟨hsess, ?_⟩, rfl⟩
      simp [ht, hst, hlo, hhi', minutesPerDay]
    have hfree := List.all_eq_true.mp h3 _ hb
    obtain ⟨ho1, ho2⟩ := hover
    simp only [slotFree] at hfree
    simp at hfree
    omega
  · exact genSlotsAux_pairwise (busySlots st tid (startOfDay date)) dur
      (startOfDay date + businessEndHour * 60) _ _

/-- C1 witness: the slots computed for the concrete store are strictly
ascending. -/
theorem c1_witness :
    (get_available_slots confirmedStore ("T") 0 60).Pairwise (· < ·) :=
  (c1_available_slots_in_hours confirmedStore ("T") 0 60 (by decide)).2
/-- C5 (amended): dispatched directly to the schedule handler, the four
utterances accumulate name, phone, date and time in order, and the
fourth turn commits a booking whose resolved date is tomorrow (current
day + 1) and whose resolved time is 14:00 — the session is stored at
minute (today + 1) * 1440 + 840 — provided the caller is a registered
client with a positive balance. Routed through the intent dispatcher,
the same four utterances all classify as general intent and trigger no
booking (see the counterexample). -/
theorem c5_handler_turns_book_tomorrow (fd : String → Option Nat)
    (today : Nat) (n : Int) (h : 1 ≤ n) :
    handlerTurns fd dateutilTime today (janeStore n) emptyContext
      fourTurnUtts =
      ⟨.booked ((today + 1) * 1440 + 840) (n - 1), janeBookedStore today n,
       emptyContext⟩ := by
  have hstep : handlerTurns fd dateutilTime today (janeStore n) emptyContext
      fourTurnUtts =
      finishWithClient (janeStore n)
        ⟨some ("jane smith"), some ("555-123-4567"), some ("tomorrow"),
         some ("2pm")⟩ ("jane smith") 0 ((today + 1) * 1440 + 840) := rfl
  rw [hstep]
  unfold finishWithClient
  have hrem : get_client_sessions_remaining (janeStore n) 0 = n := rfl
  rw [hrem]
  rw [if_neg (show ¬(n ≤ 0) by omega)]
  rfl

/-- C5 witness: the four turns applied at a concrete day and balance. -/
theorem c5_witness :
    handlerTurns (fun _ => none) dateutilTime 7 (janeStore 5) emptyContext
      fourTurnUtts =
      ⟨.booked ((7 + 1) * 1440 + 840) (5 - 1), janeBookedStore 7 5,
       emptyContext⟩ :=
  c5_handler_turns_book_tomorrow (fun _ => none) 7 5 (by decide)
